import Mathlib

/-!
# Verification of the onnxjs-demo shape/math utility module

Shallow embedding of `src/utils/utils-yolo/yoloPostprocessUtils.ts`.

Modelling conventions:
* JavaScript numbers are modelled as `ℕ`, `ℤ` or `ℚ` depending on the value
  domain each function is exercised on (indices and shape dimensions are
  integers in every claim considered; the auto-pad computation genuinely
  performs non-integer division, so it is modelled over `ℚ`, which agrees
  with IEEE doubles on the small concrete inputs evaluated here).
* A JavaScript `throw` is modelled by `Except.error`; a function that
  mutates a caller-supplied array is modelled by returning the new state
  of that array in its result.
* `undefined`-able parameters are modelled as `Option`.
-/

set_option autoImplicit false

namespace ShapeUtil

/-- `ShapeUtil.getSizeFromDimensionRange(dims, 0, dims.length)`: the loop body
checks `dims[i] <= 0` and throws, else multiplies into the accumulator.  The
product is rebracketed to the right, which is the same value. -/
def sizeProd : List ℤ → Except String ℤ
  | [] => .ok 1
  | d :: ds =>
    if d ≤ 0 then .error "cannot get valid size from specified dimension range"
    else do
      let s ← sizeProd ds
      .ok (d * s)

/-- `ShapeUtil.size(dims)` = `getSizeFromDimensionRange(dims, 0, dims.length)`. -/
def size (dims : List ℤ) : Except String ℤ := sizeProd dims

/-- `ShapeUtil.getActualAxisFromNegativeValue(axis, tensorRank)`, verbatim:
the guard is the conjunction `axis < -tensorRank && axis > tensorRank - 1`
exactly as written in the source. -/
def getActualAxisFromNegativeValue (axis tensorRank : ℤ) : Except String ℤ :=
  if axis < -tensorRank ∧ axis > tensorRank - 1 then
    .error "unsupported axis for this operation."
  else .ok (if axis < 0 then axis + tensorRank else axis)

/-- The loop of `ShapeUtil.calculateReshapedDims`: walks `shapeHints` with
index `i`, carrying the reshaped dims built so far (in reverse, `acc`), the
position of the sole `-1` hint (`unk`), and the running product `size` of the
known dims.  The `-1` slot is left as a placeholder `0` (JS leaves a hole)
and is overwritten after the loop. -/
def reshapeLoop (originalDims : List ℤ) :
    List ℤ → ℕ → Option ℕ → ℤ → List ℤ → Except String (List ℤ × Option ℕ × ℤ)
  | [], _, unk, sz, acc => .ok (acc.reverse, unk, sz)
  | h :: rest, i, unk, sz, acc =>
    if h < -1 then .error "a dimension cannot be less than -1"
    else if h = -1 then
      match unk with
      | some _ => .error "at most one dimension can be -1"
      | none => reshapeLoop originalDims rest (i + 1) (some i) sz (0 :: acc)
    else if h = 0 then
      if i ≥ originalDims.length then
        .error "the dimension with value zero exceeds the dimension size of the input tensor"
      else
        reshapeLoop originalDims rest (i + 1) unk (sz * originalDims.getD i 0)
          (originalDims.getD i 0 :: acc)
    else reshapeLoop originalDims rest (i + 1) unk (sz * h) (h :: acc)

/-- `ShapeUtil.calculateReshapedDims(originalDims, shapeHints)`.  Note that the
divisibility / total-size check in the source is guarded by
`unknownDimension !== -1`: it only runs when a `-1` hint was seen. -/
def calculateReshapedDims (originalDims shapeHints : List ℤ) : Except String (List ℤ) := do
  let (dims, unk, sz) ← reshapeLoop originalDims shapeHints 0 none 1 []
  match unk with
  | none => .ok dims
  | some u => do
    let total ← size originalDims
    if total % sz ≠ 0 then
      .error "the input tensor cannot be reshaped to the requested shape"
    else .ok (dims.set u (total / sz))

/-- Suffix products of a shape:
`suffixProducts l` has `(suffixProducts l)[i] = product of l[i+1..]`.
This is the value computed by the backward recurrence in
`ShapeUtil.computeStrides` (`strides[rank-1] = 1`,
`strides[i] = strides[i+1] * shape[i+1]`). -/
def suffixProducts : List ℕ → List ℕ
  | [] => []
  | _ :: rest => rest.prod :: suffixProducts rest

/-- `ShapeUtil.computeStrides(shape)`: ranks 0 and 1 return `[1]`. -/
def computeStrides (shape : List ℕ) : List ℕ :=
  if shape.length < 2 then [1] else suffixProducts shape

/-- `ShapeUtil.indicesToOffset(indices, strides)`, written as a paired
recursion: `index = indices[indices.length-1]` plus
`strides[i]*indices[i]` for `i < indices.length - 1`.  Faithful on the
domain where `indices` and `strides` have equal length (as the source
assumes); `strides = []` returns `0` as in the `rank === 0` early return. -/
def indicesToOffset : List ℕ → List ℕ → ℕ
  | _, [] => 0
  | [], _ :: _ => 0
  | [i], _ :: _ => i
  | i :: is, s :: ss => s * i + indicesToOffset is ss

/-- `ShapeUtil.offsetToIndices(offset, strides)`: rank 0 gives `[]`, rank 1
gives `[offset]`, otherwise each step emits `Math.floor(offset / strides[i])`
and continues with the remainder (`offset -= indices[i]*strides[i]`, i.e. the
mod), the last position receiving the remaining offset. -/
def offsetToIndices : ℕ → List ℕ → List ℕ
  | _, [] => []
  | offset, [_] => [offset]
  | offset, s :: s2 :: ss => (offset / s) :: offsetToIndices (offset % s) (s2 :: ss)

end ShapeUtil

namespace BroadcastUtil

/-- The right-aligned dimension read `arank - i < 0 ? 1 : adims[arank - i]`
used by `BroadcastUtil.calcShape` (`i` counts from the right, 1-based);
out-of-range axes read as `1`. -/
def alignedDim (dims : List ℤ) (i : ℕ) : ℤ :=
  if dims.length < i then 1 else dims.getD (dims.length - i) 1

/-- `BroadcastUtil.calcShape(adims, bdims, false)` (the `isMatMul = false`
instantiation, the one the claims quantify over).  The loop over
`i = 1..crank` returns `undefined` as soon as
`aLen !== bLen && aLen > 1 && bLen > 1`, else writes
`cdims[crank - i] = Math.max(aLen, bLen)`; position `p` of the result
therefore corresponds to `i = crank - p`. -/
def calcShape (adims bdims : List ℤ) : Option (List ℤ) :=
  let crank := max adims.length bdims.length
  if (List.range crank).all (fun j =>
      decide (alignedDim adims (j + 1) = alignedDim bdims (j + 1))
        || decide (alignedDim adims (j + 1) ≤ 1)
        || decide (alignedDim bdims (j + 1) ≤ 1))
  then some ((List.range crank).map (fun p =>
      max (alignedDim adims (crank - p)) (alignedDim bdims (crank - p))))
  else none

/-- `BroadcastUtil.isValidBroadcast(shape, finalShape)`: right-aligned check
that every dimension of `shape` is `1` or equals the matching `finalShape`
dimension, after rejecting `shape.length > finalShape.length`. -/
def isValidBroadcast (shape finalShape : List ℤ) : Bool :=
  if shape.length > finalShape.length then false
  else (List.range shape.length).all (fun j =>
      decide (shape.getD (shape.length - (j + 1)) 0 = 1)
        || decide (shape.getD (shape.length - (j + 1)) 0
            = finalShape.getD (finalShape.length - (j + 1)) 0))

end BroadcastUtil

namespace GemmUtil

/-- `GemmUtil.getShapeOfGemmResult(leftShape, transLeft, rightShape,
transRight, biasShape)`, with the same check order as the source. -/
def getShapeOfGemmResult (leftShape : List ℤ) (transLeft : Bool)
    (rightShape : List ℤ) (transRight : Bool) (biasShape : List ℤ) :
    Except String (List ℤ) :=
  if leftShape.length ≠ 2 ∨ rightShape.length ≠ 2 then
    .error "shape need to be of size 2"
  else
    let M := if transLeft then leftShape.getD 1 0 else leftShape.getD 0 0
    let K := if transLeft then leftShape.getD 0 0 else leftShape.getD 1 0
    let N := if transRight then rightShape.getD 0 0 else rightShape.getD 1 0
    let kDim : ℕ := if transRight then 1 else 0
    if rightShape.getD kDim 0 ≠ K then .error "dimension mismatch"
    else if M ≤ 0 ∨ N ≤ 0 ∨ K ≤ 0 then .error "invalid shape specified"
    else if BroadcastUtil.isValidBroadcast biasShape [M, N] = false then
      .error "gemm: invalid bias shape for broadcast"
    else .ok [M, N]

end GemmUtil

/-- The write loop shared in shape by `arrayCopyHelper` and the `MathUtil`
primitives: `for (offset = 0; offset < blockSize; offset++)` applies `body`
at `targetIndex + offset` reading `source[sourceIndex + offset]`.  A
non-positive `blockSize` runs zero iterations (`Int.toNat` is `0` there). -/
def blockLoop (target source : List ℚ) (targetIndex sourceIndex blockSize : ℤ)
    (body : ℚ → ℚ → ℚ) : List ℚ :=
  (List.range blockSize.toNat).foldl
    (fun t offset =>
      t.set (targetIndex + offset).toNat
        (body (t.getD (targetIndex + offset).toNat 0)
          (source.getD (sourceIndex + offset).toNat 0)))
    target

/-- `arrayCopyHelper(target, source, targetIndex, sourceIndex, blockSize)`:
four bounds checks in source order, then `target[ti+o] = source[si+o]`.
The `source` buffer is never written by the loop, so the post-state of the
caller's buffers is fully described by the returned `target`. -/
def arrayCopyHelper (target source : List ℚ) (targetIndex sourceIndex blockSize : ℤ) :
    Except String (List ℚ) :=
  if sourceIndex < 0 ∨ sourceIndex ≥ (source.length : ℤ) then
    .error "sourceIndex out of bounds"
  else if targetIndex < 0 ∨ targetIndex ≥ (target.length : ℤ) then
    .error "targetIndex out of bounds"
  else if sourceIndex + blockSize > (source.length : ℤ) then
    .error "source indices to be copied are outside bounds"
  else if targetIndex + blockSize > (target.length : ℤ) then
    .error "target array is too small to hold result"
  else
    .ok (blockLoop target source targetIndex sourceIndex blockSize (fun _ x => x))

namespace MathUtil

/-- `MathUtil.sqr`: same checks, loop body `target[ti+o] += source[si+o] ** 2`. -/
def sqr (target source : List ℚ) (targetIndex sourceIndex blockSize : ℤ) :
    Except String (List ℚ) :=
  if sourceIndex < 0 ∨ sourceIndex ≥ (source.length : ℤ) then
    .error "sourceIndex out of bounds"
  else if targetIndex < 0 ∨ targetIndex ≥ (target.length : ℤ) then
    .error "targetIndex out of bounds"
  else if sourceIndex + blockSize > (source.length : ℤ) then
    .error "source indices to be copied are outside bounds"
  else if targetIndex + blockSize > (target.length : ℤ) then
    .error "target array is too small to hold result"
  else
    .ok (blockLoop target source targetIndex sourceIndex blockSize (fun y x => y + x ^ 2))

/-- `MathUtil.axpy`: loop body `target[ti+o] += alpha * source[si+o]`. -/
def axpy (target source : List ℚ) (targetIndex sourceIndex blockSize : ℤ) (alpha : ℚ) :
    Except String (List ℚ) :=
  if sourceIndex < 0 ∨ sourceIndex ≥ (source.length : ℤ) then
    .error "sourceIndex out of bounds"
  else if targetIndex < 0 ∨ targetIndex ≥ (target.length : ℤ) then
    .error "targetIndex out of bounds"
  else if sourceIndex + blockSize > (source.length : ℤ) then
    .error "source indices to be copied are outside bounds"
  else if targetIndex + blockSize > (target.length : ℤ) then
    .error "target array is too small to hold result"
  else
    .ok (blockLoop target source targetIndex sourceIndex blockSize (fun y x => y + alpha * x))

/-- `MathUtil.powx`: loop body `target[ti+o] = Math.pow(source[si+o], b)`;
the exponent is modelled as an integer (`zpow` on `ℚ`). -/
def powx (target source : List ℚ) (targetIndex sourceIndex blockSize : ℤ) (b : ℤ) :
    Except String (List ℚ) :=
  if sourceIndex < 0 ∨ sourceIndex ≥ (source.length : ℤ) then
    .error "sourceIndex out of bounds"
  else if targetIndex < 0 ∨ targetIndex ≥ (target.length : ℤ) then
    .error "targetIndex out of bounds"
  else if sourceIndex + blockSize > (source.length : ℤ) then
    .error "source indices to be copied are outside bounds"
  else if targetIndex + blockSize > (target.length : ℤ) then
    .error "target array is too small to hold result"
  else
    .ok (blockLoop target source targetIndex sourceIndex blockSize (fun _ x => x ^ b))

/-- `MathUtil.mul`: loop body `target[ti+o] = source[si+o] * target[ti+o]`. -/
def mul (target source : List ℚ) (targetIndex sourceIndex blockSize : ℤ) :
    Except String (List ℚ) :=
  if sourceIndex < 0 ∨ sourceIndex ≥ (source.length : ℤ) then
    .error "sourceIndex out of bounds"
  else if targetIndex < 0 ∨ targetIndex ≥ (target.length : ℤ) then
    .error "targetIndex out of bounds"
  else if sourceIndex + blockSize > (source.length : ℤ) then
    .error "source indices to be copied are outside bounds"
  else if targetIndex + blockSize > (target.length : ℤ) then
    .error "target array is too small to hold result"
  else
    .ok (blockLoop target source targetIndex sourceIndex blockSize (fun y x => x * y))

end MathUtil

namespace SplitUtil

/-- `SplitUtil.determineSplit(numElementsAlongAxis, numOutputs, split)`:
checks divisibility, then pushes `numElementsAlongAxis / numOutputs` onto the
caller's `split` array `numOutputs` times.  The in-place push is modelled by
returning the new state of `split`. -/
def determineSplit (numElementsAlongAxis numOutputs : ℕ) (split : List ℕ) :
    Except String (List ℕ) :=
  if numElementsAlongAxis % numOutputs ≠ 0 then
    .error "cannot split tensor to equal sized parts"
  else .ok (split ++ List.replicate numOutputs (numElementsAlongAxis / numOutputs))

/-- The `offsets` accumulator of `SplitUtil.splitShape`: starts as `[0]` and,
for `i = 1..split.length-1`, pushes `offsets[i-1] + split[i-1]`; it ends with
one entry per split element (the trailing split sizes beyond the first
`length - 1` never contribute). -/
def buildOffsets : List ℕ → List ℕ
  | [] => [0]
  | [_] => [0]
  | s :: s2 :: ss => 0 :: (buildOffsets (s2 :: ss)).map (· + s)

/-- `SplitUtil.splitShape(dims, axis, split, numOutputs)`.  The JS falsiness
test `!numOutputs` holds for both `undefined` and `0`, modelled via
`numOutputs.getD 0 = 0`.  Each output shape is `dims` with position `axis`
replaced by the corresponding split size. -/
def splitShape (dims : List ℕ) (axis : ℕ) (split : List ℕ) (numOutputs : Option ℕ) :
    Except String (List (List ℕ) × List ℕ) :=
  let splitRes : Except String (List ℕ) :=
    if split.length = 0 then
      if numOutputs.getD 0 = 0 then
        .error "need to know number of outputs when the split attribute is not specified"
      else determineSplit (dims.getD axis 0) (numOutputs.getD 0) split
    else .ok split
  match splitRes with
  | .error e => .error e
  | .ok split2 => .ok (split2.map (fun s => dims.set axis s), buildOffsets split2)

end SplitUtil

/-- `Math.floor` on the exact-rational model of JS numbers. -/
def jsFloor (q : ℚ) : ℚ := (⌊q⌋ : ℚ)

namespace PoolConvUtil

/-- The `else` branch of `adjustPadAndReturnShape` (no auto-pad): output size
from the explicit pads. -/
def defaultPadShape (inSize stride kernel : ℚ) (pads : List ℚ)
    (padHeadIndex padTailIndex : ℕ) : ℚ :=
  jsFloor ((inSize + pads.getD padHeadIndex 0 + pads.getD padTailIndex 0 - kernel) / stride + 1)

/-- `PoolConvUtil.adjustPadAndReturnShape(inSize, stride, kernel, pads,
padHeadIndex, padTailIndex, autoPad)`.  The source computes
`legacyTargetSize = (inSize + stride - 1) / stride` with plain JS division
(no `Math.floor`), faithfully kept here as exact rational division; `ℚ`
agrees with IEEE doubles on the concrete inputs evaluated below.  JS
truthiness of `autoPad` (`autoPad && autoPad !== 'NOTSET'`) sends
`undefined`, the empty string and `NOTSET` to the explicit-pads branch. -/
def adjustPadAndReturnShape (inSize stride kernel : ℚ) (pads : List ℚ)
    (padHeadIndex padTailIndex : ℕ) (autoPad : Option String) :
    Except String (List ℚ × ℚ) :=
  match autoPad with
  | some "VALID" =>
    .ok ((pads.set padHeadIndex 0).set padTailIndex 0,
      jsFloor ((inSize - kernel) / stride + 1))
  | some "SAME_LOWER" =>
    let legacyTargetSize1 := (inSize + stride - 1) / stride
    let padNeeded1 := (legacyTargetSize1 - 1) * stride + kernel - inSize
    let head := jsFloor ((padNeeded1 + 1) / 2)
    .ok ((pads.set padHeadIndex head).set padTailIndex (padNeeded1 - head),
      jsFloor ((inSize + padNeeded1 - kernel) / stride + 1))
  | some "SAME_UPPER" =>
    let legacyTargetSize := (inSize + stride - 1) / stride
    let padNeeded := (legacyTargetSize - 1) * stride + kernel - inSize
    let head := jsFloor (padNeeded / 2)
    .ok ((pads.set padHeadIndex head).set padTailIndex (padNeeded - head),
      jsFloor ((inSize + padNeeded - kernel) / stride + 1))
  | none => .ok (pads, defaultPadShape inSize stride kernel pads padHeadIndex padTailIndex)
  | some "" => .ok (pads, defaultPadShape inSize stride kernel pads padHeadIndex padTailIndex)
  | some "NOTSET" => .ok (pads, defaultPadShape inSize stride kernel pads padHeadIndex padTailIndex)
  | some _ => .error "Unsupported AutoPad type"

end PoolConvUtil

/-- C1: evaluation of the auto-pad computation at inSize 32, stride 2,
kernel 3 (the claim's own instance).  `legacyTargetSize` is computed by
plain JS division, giving 33/2 = 16.5 rather than ceil(32/2) = 16, so
`padNeeded = (16.5 - 1)*2 + 3 - 32 = 2` (not `max(0, 15*2 + 3 - 32) = 1`):
SAME_UPPER produces the pad pair (1,1) — the claim says (0,1) — and
SAME_LOWER produces (1,1) — the claim says (1,0).  The returned output size
16 agrees with the claim.  All intermediate values here are exactly
representable IEEE doubles, so the rational model coincides with JS. -/
theorem claim_C1_autopad_eval :
    PoolConvUtil.adjustPadAndReturnShape 32 2 3 [0, 0] 0 1 (some "SAME_UPPER")
      = .ok ([1, 1], 16)
    ∧ PoolConvUtil.adjustPadAndReturnShape 32 2 3 [0, 0] 0 1 (some "SAME_LOWER")
      = .ok ([1, 1], 16) := by
  constructor <;>
  · unfold PoolConvUtil.adjustPadAndReturnShape
    norm_num [jsFloor]

/-- C2: `calculateReshapedDims` runs its total-size (divisibility) check only
when a `-1` hint is present, so `[2,2]` reshaped with hints `[5]` returns
`[5]` — total size 5 against the original 4 — instead of failing as the
claim (and the source's own doc comment, which promises an exception for
exactly this input) states.  The claim's two positive examples do hold. -/
theorem claim_C2_reshape_eval :
    ShapeUtil.calculateReshapedDims [2, 2] [5] = .ok [5]
    ∧ ShapeUtil.calculateReshapedDims [2, 2] [0, -1] = .ok [2, 2]
    ∧ ShapeUtil.calculateReshapedDims [2, 2] [4] = .ok [4]
    ∧ ShapeUtil.size [5] = .ok 5
    ∧ ShapeUtil.size [2, 2] = .ok 4 := by
  refine ⟨rfl, rfl, rfl, rfl, rfl⟩

/-- C3: the guard `axis < -tensorRank && axis > tensorRank - 1` is a
conjunction that no integer satisfies once tensorRank ≥ 1, so an axis below
`-tensorRank` is never rejected: at axis = -3, tensorRank = 2 the function
returns `.ok (-3 + 2) = .ok (-1)` where the claim demands failure (likewise
axis = -10, tensorRank = 4 returns `.ok (-6)`). -/
theorem claim_C3_axis_eval :
    ShapeUtil.getActualAxisFromNegativeValue (-3) 2 = .ok (-1)
    ∧ ShapeUtil.getActualAxisFromNegativeValue (-10) 4 = .ok (-6) := by
  constructor <;> rfl

/-- C4: every call to `arrayCopyHelper`, `MathUtil.sqr`, `MathUtil.axpy`,
`MathUtil.powx` or `MathUtil.mul` whose sourceIndex or targetIndex origin is
out of bounds, or whose block extends past either buffer, fails with a
bounds error; all four validations precede the write loop, so the error
result carries no modified buffer (and the loop never writes `source`). -/
theorem claim_C4_bounds_error :
    ∀ (target source : List ℚ) (ti si bs : ℤ) (alpha : ℚ) (b : ℤ),
      (si < 0 ∨ si ≥ (source.length : ℤ) ∨ ti < 0 ∨ ti ≥ (target.length : ℤ)
        ∨ si + bs > (source.length : ℤ) ∨ ti + bs > (target.length : ℤ)) →
      (∃ e, arrayCopyHelper target source ti si bs = .error e)
      ∧ (∃ e, MathUtil.sqr target source ti si bs = .error e)
      ∧ (∃ e, MathUtil.axpy target source ti si bs alpha = .error e)
      ∧ (∃ e, MathUtil.powx target source ti si bs b = .error e)
      ∧ (∃ e, MathUtil.mul target source ti si bs = .error e) := by
  intro target source ti si bs alpha b h
  refine ⟨?_, ?_, ?_, ?_, ?_⟩
  · unfold arrayCopyHelper
    split_ifs <;> first | exact ⟨_, rfl⟩ | (exfalso; omega)
  · unfold MathUtil.sqr
    split_ifs <;> first | exact ⟨_, rfl⟩ | (exfalso; omega)
  · unfold MathUtil.axpy
    split_ifs <;> first | exact ⟨_, rfl⟩ | (exfalso; omega)
  · unfold MathUtil.powx
    split_ifs <;> first | exact ⟨_, rfl⟩ | (exfalso; omega)
  · unfold MathUtil.mul
    split_ifs <;> first | exact ⟨_, rfl⟩ | (exfalso; omega)

/-- Witness for C4: sourceIndex 0 is out of bounds for an empty source. -/
theorem claim_C4_witness :
    (∃ e, arrayCopyHelper [1] [] 0 0 0 = .error e)
    ∧ (∃ e, MathUtil.sqr [1] [] 0 0 0 = .error e)
    ∧ (∃ e, MathUtil.axpy [1] [] 0 0 0 1 = .error e)
    ∧ (∃ e, MathUtil.powx [1] [] 0 0 0 1 = .error e)
    ∧ (∃ e, MathUtil.mul [1] [] 0 0 0 = .error e) :=
  claim_C4_bounds_error [1] [] 0 0 0 1 1 (by simp)

/-- C10: with both origins in bounds and a non-positive blockSize, every
primitive passes all four bounds checks (`index + blockSize` can only be
below the respective length) and its loop runs zero iterations, returning
the target buffer unchanged. -/
theorem claim_C10_nonpositive_block :
    ∀ (target source : List ℚ) (ti si bs : ℤ) (alpha : ℚ) (b : ℤ),
      0 ≤ ti → ti < (target.length : ℤ) → 0 ≤ si → si < (source.length : ℤ) →
      bs ≤ 0 →
      arrayCopyHelper target source ti si bs = .ok target
      ∧ MathUtil.sqr target source ti si bs = .ok target
      ∧ MathUtil.axpy target source ti si bs alpha = .ok target
      ∧ MathUtil.powx target source ti si bs b = .ok target
      ∧ MathUtil.mul target source ti si bs = .ok target := by
  intro target source ti si bs alpha b h1 h2 h3 h4 h5
  have hbs : bs.toNat = 0 := Int.toNat_of_nonpos h5
  refine ⟨?_, ?_, ?_, ?_, ?_⟩
  · unfold arrayCopyHelper
    split_ifs <;> first | (exfalso; omega) | simp [blockLoop, hbs]
  · unfold MathUtil.sqr
    split_ifs <;> first | (exfalso; omega) | simp [blockLoop, hbs]
  · unfold MathUtil.axpy
    split_ifs <;> first | (exfalso; omega) | simp [blockLoop, hbs]
  · unfold MathUtil.powx
    split_ifs <;> first | (exfalso; omega) | simp [blockLoop, hbs]
  · unfold MathUtil.mul
    split_ifs <;> first | (exfalso; omega) | simp [blockLoop, hbs]

/-- Witness for C10: in-bounds origins, blockSize 0. -/
theorem claim_C10_witness :
    arrayCopyHelper [5] [7] 0 0 0 = .ok [5]
    ∧ MathUtil.sqr [5] [7] 0 0 0 = .ok [5]
    ∧ MathUtil.axpy [5] [7] 0 0 0 2 = .ok [5]
    ∧ MathUtil.powx [5] [7] 0 0 0 2 = .ok [5]
    ∧ MathUtil.mul [5] [7] 0 0 0 = .ok [5] :=
  claim_C10_nonpositive_block [5] [7] 0 0 0 2 2 (by norm_num) (by norm_num)
    (by norm_num) (by norm_num) (by norm_num)

/-- C9: `determineSplit` pushes `numOutputs` copies of the quotient onto the
caller's `split` array (the in-place push is the returned list state): for a
dividing `numOutputs` the post-state is `split ++ replicate numOutputs
(d / numOutputs)`, and a caller that passed an empty list observes a
nonempty one afterwards. -/
theorem claim_C9_split_mutation :
    ∀ (d n : ℕ) (split : List ℕ), 0 < n → n ∣ d →
      SplitUtil.determineSplit d n split = .ok (split ++ List.replicate n (d / n))
      ∧ (split = [] → split ++ List.replicate n (d / n) ≠ []) := by
  intro d n split hn hdvd
  obtain ⟨k, rfl⟩ := hdvd
  constructor
  · unfold SplitUtil.determineSplit
    rw [if_neg]
    simp [Nat.mul_mod_right]
  · intro h
    subst h
    simp only [List.nil_append, ne_eq, List.replicate_eq_nil_iff]
    omega

/-- Unfolding equation for the third arm of `buildOffsets`. -/
theorem buildOffsets_cons_cons (s x : ℕ) (xs : List ℕ) :
    SplitUtil.buildOffsets (s :: x :: xs)
      = 0 :: (SplitUtil.buildOffsets (x :: xs)).map (· + s) := rfl

/-- The offsets loop on an equal split produces the cumulative multiples of
the part size. -/
theorem buildOffsets_replicate (q n : ℕ) (h : 0 < n) :
    SplitUtil.buildOffsets (List.replicate n q) = (List.range n).map (· * q) := by
  induction n with
  | zero => omega
  | succ m ih =>
    cases m with
    | zero => simp [SplitUtil.buildOffsets, List.range_succ]
    | succ p =>
      rw [List.replicate_succ, List.replicate_succ, buildOffsets_cons_cons,
        ← List.replicate_succ, ih (Nat.succ_pos p)]
      conv_rhs => rw [List.range_succ_eq_map, List.map_cons, List.map_map]
      rw [List.map_map]
      simp only [Nat.zero_mul]
      congr 1
      apply List.map_congr_left
      intro a _
      simp [Function.comp, Nat.succ_mul]

/-- C8: with an empty split list, `splitShape` fails when numOutputs is
absent or does not divide `dims[axis]`, and otherwise yields numOutputs
copies of `dims` with the axis dimension replaced by the equal part size,
together with the cumulative start offsets; the claim's two concrete
examples are instances. -/
theorem claim_C8_splitShape :
    (∀ (dims : List ℕ) (axis : ℕ), SplitUtil.splitShape dims axis [] none
        = .error "need to know number of outputs when the split attribute is not specified")
    ∧ (∀ (dims : List ℕ) (axis n : ℕ), 0 < n → ¬ n ∣ dims.getD axis 0 →
        SplitUtil.splitShape dims axis [] (some n)
          = .error "cannot split tensor to equal sized parts")
    ∧ (∀ (dims : List ℕ) (axis n : ℕ), 0 < n → n ∣ dims.getD axis 0 →
        SplitUtil.splitShape dims axis [] (some n)
          = .ok (List.replicate n (dims.set axis (dims.getD axis 0 / n)),
              (List.range n).map (· * (dims.getD axis 0 / n))))
    ∧ SplitUtil.splitShape [1, 9, 4] 1 [] (some 3)
        = .ok ([[1, 3, 4], [1, 3, 4], [1, 3, 4]], [0, 3, 6])
    ∧ SplitUtil.splitShape [1, 10, 4] 1 [] (some 3)
        = .error "cannot split tensor to equal sized parts" := by
  have hmain : ∀ (dims : List ℕ) (axis n : ℕ), 0 < n → n ∣ dims.getD axis 0 →
      SplitUtil.splitShape dims axis [] (some n)
        = .ok (List.replicate n (dims.set axis (dims.getD axis 0 / n)),
            (List.range n).map (· * (dims.getD axis 0 / n))) := by
    intro dims axis n hn hdvd
    obtain ⟨k, hk⟩ := hdvd
    have hmod : dims.getD axis 0 % n = 0 := by rw [hk]; exact Nat.mul_mod_right n k
    have hdet : SplitUtil.determineSplit (dims.getD axis 0) n []
        = .ok (List.replicate n (dims.getD axis 0 / n)) := by
      unfold SplitUtil.determineSplit
      rw [if_neg (not_not.mpr hmod), List.nil_append]
    unfold SplitUtil.splitShape
    simp only [List.length_nil, eq_self_iff_true, if_true, Option.getD_some,
      if_neg hn.ne', hdet]
    simp only [List.map_replicate]
    rw [buildOffsets_replicate _ _ hn]
  have hfail : ∀ (dims : List ℕ) (axis n : ℕ), 0 < n → ¬ n ∣ dims.getD axis 0 →
      SplitUtil.splitShape dims axis [] (some n)
        = .error "cannot split tensor to equal sized parts" := by
    intro dims axis n hn hdvd
    have hmod : dims.getD axis 0 % n ≠ 0 := fun h => hdvd (Nat.dvd_of_mod_eq_zero h)
    have hdet : SplitUtil.determineSplit (dims.getD axis 0) n []
        = .error "cannot split tensor to equal sized parts" := by
      unfold SplitUtil.determineSplit
      rw [if_pos hmod]
    unfold SplitUtil.splitShape
    simp only [List.length_nil, eq_self_iff_true, if_true, Option.getD_some,
      if_neg hn.ne', hdet]
  refine ⟨?_, hfail, hmain, ?_, ?_⟩
  · intro dims axis
    rfl
  · have h := hmain [1, 9, 4] 1 3 (by norm_num) (by norm_num)
    rw [h]
    rfl
  · exact hfail [1, 10, 4] 1 3 (by norm_num) (by norm_num)

/-- Witness for C8: the dividing case at the claim's example. -/
theorem claim_C8_witness :
    SplitUtil.splitShape [1, 9, 4] 1 [] (some 3)
      = .ok (List.replicate 3 (List.set [1, 9, 4] 1 (List.getD [1, 9, 4] 1 0 / 3)),
          (List.range 3).map (· * (List.getD [1, 9, 4] 1 0 / 3))) :=
  claim_C8_splitShape.2.2.1 [1, 9, 4] 1 3 (by norm_num) (by norm_num)

/-- A valid index encodes to an offset below the total size: the tail of a
mixed-radix expansion is bounded by the radix of the current digit. -/
theorem indicesToOffset_lt_prod :
    ∀ (idx shape : List ℕ), List.Forall₂ (· < ·) idx shape →
      ShapeUtil.indicesToOffset idx (ShapeUtil.suffixProducts shape) < shape.prod := by
  intro idx shape h
  induction h with
  | nil => simp [ShapeUtil.indicesToOffset, ShapeUtil.suffixProducts]
  | @cons a b as bs hab htail ih =>
    cases htail with
    | nil =>
      simpa [ShapeUtil.indicesToOffset, ShapeUtil.suffixProducts] using hab
    | @cons a2 b2 as2 bs2 hab2 htail2 =>
      have hr : ShapeUtil.indicesToOffset (a2 :: as2)
          (ShapeUtil.suffixProducts (b2 :: bs2)) < (b2 :: bs2).prod := ih
      calc ShapeUtil.indicesToOffset (a :: a2 :: as2)
            (ShapeUtil.suffixProducts (b :: b2 :: bs2))
          = (b2 :: bs2).prod * a + ShapeUtil.indicesToOffset (a2 :: as2)
              (ShapeUtil.suffixProducts (b2 :: bs2)) := rfl
        _ < (b2 :: bs2).prod * a + (b2 :: bs2).prod := by omega
        _ = (b2 :: bs2).prod * (a + 1) := by ring
        _ ≤ (b2 :: bs2).prod * b := Nat.mul_le_mul_left _ hab
        _ = (b :: b2 :: bs2).prod := by simp [List.prod_cons]; ring

/-- Decoding inverts encoding over the suffix-product strides of any shape a
valid index exists for. -/
theorem offset_roundtrip_aux :
    ∀ (idx shape : List ℕ), List.Forall₂ (· < ·) idx shape →
      ShapeUtil.offsetToIndices
        (ShapeUtil.indicesToOffset idx (ShapeUtil.suffixProducts shape))
        (ShapeUtil.suffixProducts shape) = idx := by
  intro idx shape h
  induction h with
  | nil => rfl
  | @cons a b as bs hab htail ih =>
    cases htail with
    | nil => rfl
    | @cons a2 b2 as2 bs2 hab2 htail2 =>
      have hr : ShapeUtil.indicesToOffset (a2 :: as2)
          (ShapeUtil.suffixProducts (b2 :: bs2)) < (b2 :: bs2).prod :=
        indicesToOffset_lt_prod (a2 :: as2) (b2 :: bs2) (List.Forall₂.cons hab2 htail2)
      have hP : 0 < (b2 :: bs2).prod := Nat.lt_of_le_of_lt (Nat.zero_le _) hr
      set P := (b2 :: bs2).prod with hPdef
      set r := ShapeUtil.indicesToOffset (a2 :: as2)
          (ShapeUtil.suffixProducts (b2 :: bs2)) with hrdef
      have hstep : ShapeUtil.offsetToIndices (P * a + r)
          (ShapeUtil.suffixProducts (b :: b2 :: bs2))
          = ((P * a + r) / P) :: ShapeUtil.offsetToIndices ((P * a + r) % P)
              (ShapeUtil.suffixProducts (b2 :: bs2)) := rfl
      have hdiv : (P * a + r) / P = a := by
        rw [Nat.mul_add_div hP, Nat.div_eq_of_lt hr]
        omega
      have hmod : (P * a + r) % P = r := by
        rw [Nat.mul_add_mod, Nat.mod_eq_of_lt hr]
      calc ShapeUtil.offsetToIndices
            (ShapeUtil.indicesToOffset (a :: a2 :: as2)
              (ShapeUtil.suffixProducts (b :: b2 :: bs2)))
            (ShapeUtil.suffixProducts (b :: b2 :: bs2))
          = ShapeUtil.offsetToIndices (P * a + r)
              (ShapeUtil.suffixProducts (b :: b2 :: bs2)) := rfl
        _ = ((P * a + r) / P) :: ShapeUtil.offsetToIndices ((P * a + r) % P)
              (ShapeUtil.suffixProducts (b2 :: bs2)) := hstep
        _ = a :: ShapeUtil.offsetToIndices r (ShapeUtil.suffixProducts (b2 :: bs2)) := by
              rw [hdiv, hmod]
        _ = a :: a2 :: as2 := by rw [ih]

/-- For every nonempty shape `computeStrides` is exactly the suffix products
(rank 1 gives `[1]` on both sides). -/
theorem computeStrides_eq_suffixProducts :
    ∀ (shape : List ℕ), 1 ≤ shape.length →
      ShapeUtil.computeStrides shape = ShapeUtil.suffixProducts shape := by
  intro shape h
  match shape with
  | [d] => rfl
  | d :: d2 :: ds =>
    unfold ShapeUtil.computeStrides
    rw [if_neg (by simp)]

/-- C5: for every positive shape of rank ≥ 1 and every coordinate vector of
the same rank with each coordinate in `[0, dim)`, decoding the encoded offset
over `computeStrides shape` returns the original coordinates; rank-0 strides
give offset 0 and the empty index vector. -/
theorem claim_C5_offset_roundtrip :
    (∀ (shape idx : List ℕ), 1 ≤ shape.length → (∀ d ∈ shape, 0 < d) →
        List.Forall₂ (· < ·) idx shape →
        ShapeUtil.offsetToIndices
          (ShapeUtil.indicesToOffset idx (ShapeUtil.computeStrides shape))
          (ShapeUtil.computeStrides shape) = idx)
    ∧ (∀ idx : List ℕ, ShapeUtil.indicesToOffset idx [] = 0)
    ∧ (∀ offset : ℕ, ShapeUtil.offsetToIndices offset [] = []) := by
  refine ⟨?_, ?_, ?_⟩
  · intro shape idx h1 _ h3
    rw [computeStrides_eq_suffixProducts shape h1]
    exact offset_roundtrip_aux idx shape h3
  · intro idx
    rcases idx with _ | ⟨i, _ | ⟨j, t⟩⟩ <;> rfl
  · intro offset
    rfl

/-- Witness for C5: shape [2,3], index [1,2], offset 3·1+2 = 5. -/
theorem claim_C5_witness :
    ShapeUtil.offsetToIndices
      (ShapeUtil.indicesToOffset [1, 2] (ShapeUtil.computeStrides [2, 3]))
      (ShapeUtil.computeStrides [2, 3]) = [1, 2] :=
  claim_C5_offset_roundtrip.1 [2, 3] [1, 2] (by norm_num) (by decide)
    (List.Forall₂.cons (by norm_num) (List.Forall₂.cons (by norm_num) List.Forall₂.nil))

/-- An in-range right-aligned read ignores the `getD` default. -/
theorem alignedDim_inbounds (dims : List ℤ) (i : ℕ) (h1 : 1 ≤ i) (h2 : i ≤ dims.length) :
    ∀ d : ℤ, BroadcastUtil.alignedDim dims i = dims.getD (dims.length - i) d := by
  intro d
  unfold BroadcastUtil.alignedDim
  rw [if_neg (by omega)]
  have hlt : dims.length - i < dims.length := by omega
  rw [List.getD_eq_getElem dims 1 hlt, List.getD_eq_getElem dims d hlt]

/-- Right-aligned reads of a positive shape are positive (out-of-range axes
read as 1). -/
theorem alignedDim_pos (dims : List ℤ) (i : ℕ) (h1 : 1 ≤ i)
    (hpos : ∀ d ∈ dims, 0 < d) : 0 < BroadcastUtil.alignedDim dims i := by
  unfold BroadcastUtil.alignedDim
  split
  · norm_num
  · next h =>
    have hlt : dims.length - i < dims.length := by omega
    rw [List.getD_eq_getElem dims 1 hlt]
    exact hpos _ (List.getElem_mem hlt)

/-- C6: whenever `calcShape` (with isMatMul false) succeeds on two positive
shapes, the first operand's shape is unidirectionally broadcastable into the
result: its rank is at most the result's rank and each right-aligned
dimension is 1 or equals the corresponding result dimension. -/
theorem claim_C6_calcShape_isValidBroadcast :
    ∀ (a b c : List ℤ), (∀ d ∈ a, 0 < d) → (∀ d ∈ b, 0 < d) →
      BroadcastUtil.calcShape a b = some c →
      BroadcastUtil.isValidBroadcast a c = true := by
  intro a b c ha hb hc
  unfold BroadcastUtil.calcShape at hc
  simp only at hc
  split at hc
  case isFalse => exact absurd hc (by simp)
  case isTrue hall =>
    have hcval : c = (List.range (max a.length b.length)).map (fun p =>
        max (BroadcastUtil.alignedDim a (max a.length b.length - p))
          (BroadcastUtil.alignedDim b (max a.length b.length - p))) :=
      (Option.some.inj hc).symm
    have hclen : c.length = max a.length b.length := by
      rw [hcval, List.length_map, List.length_range]
    unfold BroadcastUtil.isValidBroadcast
    rw [if_neg (by omega)]
    rw [List.all_eq_true]
    intro j hj
    rw [List.mem_range] at hj
    have hja : j + 1 ≤ a.length := hj
    have hidx : max a.length b.length - (max a.length b.length - (j + 1)) = j + 1 := by
      omega
    have hcread : c.getD (c.length - (j + 1)) 0
        = max (BroadcastUtil.alignedDim a (j + 1))
            (BroadcastUtil.alignedDim b (j + 1)) := by
      have hplt2 : max a.length b.length - (j + 1)
          < ((List.range (max a.length b.length)).map (fun p =>
              max (BroadcastUtil.alignedDim a (max a.length b.length - p))
                (BroadcastUtil.alignedDim b (max a.length b.length - p)))).length := by
        rw [List.length_map, List.length_range]; omega
      rw [hclen, hcval, List.getD_eq_getElem _ 0 hplt2, List.getElem_map,
        List.getElem_range, hidx]
    have haread : a.getD (a.length - (j + 1)) 0 = BroadcastUtil.alignedDim a (j + 1) :=
      (alignedDim_inbounds a (j + 1) (by omega) hja 0).symm
    have hcond := (List.all_eq_true.mp hall) j (List.mem_range.mpr (by omega))
    simp only [Bool.or_eq_true, decide_eq_true_eq] at hcond
    have hA : 0 < BroadcastUtil.alignedDim a (j + 1) :=
      alignedDim_pos a (j + 1) (by omega) ha
    have hB : 0 < BroadcastUtil.alignedDim b (j + 1) :=
      alignedDim_pos b (j + 1) (by omega) hb
    simp only [Bool.or_eq_true, decide_eq_true_eq]
    rw [haread, hcread]
    omega

/-- Witness for C6: `calcShape [3,2] [4,1,2] = some [4,3,2]` and `[3,2]`
broadcasts into `[4,3,2]`. -/
theorem claim_C6_witness :
    BroadcastUtil.isValidBroadcast [3, 2] [4, 3, 2] = true :=
  claim_C6_calcShape_isValidBroadcast [3, 2] [4, 1, 2] [4, 3, 2]
    (by decide) (by decide) (by rfl)

/-- C7: `getShapeOfGemmResult` fails unless both operands are rank 2; with
`(M,K)` read from the left shape honoring transLeft and `(K,N)` from the
right shape honoring transRight, it fails on a contracted-dimension
mismatch, on any of M, N, K ≤ 0, and on a bias shape that does not
unidirectionally broadcast into `[M,N]`; otherwise it returns `[M,N]`.
The claim's two concrete examples are the last two conjuncts. -/
theorem claim_C7_gemm :
    (∀ (l r bias : List ℤ) (tl tr : Bool), l.length ≠ 2 ∨ r.length ≠ 2 →
      ∃ e, GemmUtil.getShapeOfGemmResult l tl r tr bias = .error e)
    ∧ (∀ (l0 l1 r0 r1 : ℤ) (bias : List ℤ) (tl tr : Bool),
        (if tr then r1 else r0) ≠ (if tl then l0 else l1) →
          ∃ e, GemmUtil.getShapeOfGemmResult [l0, l1] tl [r0, r1] tr bias = .error e)
    ∧ (∀ (l0 l1 r0 r1 : ℤ) (bias : List ℤ) (tl tr : Bool),
        (if tr then r1 else r0) = (if tl then l0 else l1) →
        ((if tl then l1 else l0) ≤ 0 ∨ (if tr then r0 else r1) ≤ 0
          ∨ (if tl then l0 else l1) ≤ 0) →
          ∃ e, GemmUtil.getShapeOfGemmResult [l0, l1] tl [r0, r1] tr bias = .error e)
    ∧ (∀ (l0 l1 r0 r1 : ℤ) (bias : List ℤ) (tl tr : Bool),
        (if tr then r1 else r0) = (if tl then l0 else l1) →
        0 < (if tl then l1 else l0) → 0 < (if tr then r0 else r1) →
        0 < (if tl then l0 else l1) →
        BroadcastUtil.isValidBroadcast bias
          [if tl then l1 else l0, if tr then r0 else r1] = false →
          ∃ e, GemmUtil.getShapeOfGemmResult [l0, l1] tl [r0, r1] tr bias = .error e)
    ∧ (∀ (l0 l1 r0 r1 : ℤ) (bias : List ℤ) (tl tr : Bool),
        (if tr then r1 else r0) = (if tl then l0 else l1) →
        0 < (if tl then l1 else l0) → 0 < (if tr then r0 else r1) →
        0 < (if tl then l0 else l1) →
        BroadcastUtil.isValidBroadcast bias
          [if tl then l1 else l0, if tr then r0 else r1] = true →
          GemmUtil.getShapeOfGemmResult [l0, l1] tl [r0, r1] tr bias
            = .ok [if tl then l1 else l0, if tr then r0 else r1])
    ∧ GemmUtil.getShapeOfGemmResult [2, 3] false [3, 4] false [1, 4] = .ok [2, 4]
    ∧ (∃ e, GemmUtil.getShapeOfGemmResult [2, 3] false [5, 4] false [1, 4]
        = .error e) := by
  refine ⟨?_, ?_, ?_, ?_, ?_, ?_, ?_⟩
  · intro l r bias tl tr h
    unfold GemmUtil.getShapeOfGemmResult
    rw [if_pos h]
    exact ⟨_, rfl⟩
  · intro l0 l1 r0 r1 bias tl tr h
    unfold GemmUtil.getShapeOfGemmResult
    rw [if_neg (by norm_num)]
    simp only [apply_ite (fun i : ℕ => List.getD [r0, r1] i 0),
      List.getD_cons_zero, List.getD_cons_succ]
    rw [if_pos h]
    exact ⟨_, rfl⟩
  · intro l0 l1 r0 r1 bias tl tr h hle
    unfold GemmUtil.getShapeOfGemmResult
    rw [if_neg (by norm_num)]
    simp only [apply_ite (fun i : ℕ => List.getD [r0, r1] i 0),
      List.getD_cons_zero, List.getD_cons_succ]
    rw [if_neg (not_not.mpr h), if_pos hle]
    exact ⟨_, rfl⟩
  · intro l0 l1 r0 r1 bias tl tr h h1 h2 h3 hb
    unfold GemmUtil.getShapeOfGemmResult
    rw [if_neg (by norm_num)]
    simp only [apply_ite (fun i : ℕ => List.getD [r0, r1] i 0),
      List.getD_cons_zero, List.getD_cons_succ]
    rw [if_neg (not_not.mpr h), if_neg (by omega), if_pos (by simp [hb])]
    exact ⟨_, rfl⟩
  · intro l0 l1 r0 r1 bias tl tr h h1 h2 h3 hb
    unfold GemmUtil.getShapeOfGemmResult
    rw [if_neg (by norm_num)]
    simp only [apply_ite (fun i : ℕ => List.getD [r0, r1] i 0),
      List.getD_cons_zero, List.getD_cons_succ]
    rw [if_neg (not_not.mpr h), if_neg (by omega), if_neg (by simp [hb])]
  · rfl
  · exact ⟨"dimension mismatch", rfl⟩

/-- Witness for C7: the fully-valid case at the claim's example. -/
theorem claim_C7_witness :
    GemmUtil.getShapeOfGemmResult [2, 3] false [3, 4] false [1, 4]
      = .ok [if false then 3 else 2, if false then 3 else 4] :=
  claim_C7_gemm.2.2.2.2.1 2 3 3 4 [1, 4] false false (by norm_num) (by norm_num)
    (by norm_num) (by norm_num) (by rfl)

/-- Witness for C9. -/
theorem claim_C9_witness :
    SplitUtil.determineSplit 9 3 [] = .ok ([] ++ List.replicate 3 (9 / 3))
    ∧ (([] : List ℕ) = [] → ([] : List ℕ) ++ List.replicate 3 (9 / 3) ≠ []) :=
  claim_C9_split_mutation 9 3 [] (by norm_num) (by norm_num)
